import Mathlib

/-!
Verification of the pytube stream-manifest core (`pytube/streams.py` and
`pytube/mixins.py`) via a shallow embedding.

Python strings are modelled as `List Char`; Python dict records carrying a
fixed set of keys are modelled as structures; Python exceptions are modelled
with `Except` / `Option`; the chunked download pipeline is modelled as a pure
function producing a trace of sink writes and observer-callback invocations.

External collaborators that are not part of the two source files
(`pytube.request`, filesystem helpers, the signature solver in
`pytube.cipher`) are passed in as explicit parameters, matching the spec's
"external collaborators" contract.
-/

namespace Pytube

/-- Python strings modelled as lists of characters. -/
abbrev Str := List Char

/-- `startsWith pat s` holds when `pat` is an initial run of `s`. -/
def startsWith : Str → Str → Bool
  | [], _ => true
  | _ :: _, [] => false
  | a :: as, b :: bs => a == b && startsWith as bs

/-- `hasSub pat s` models Python's substring test `pat in s`. -/
def hasSub (pat : Str) : Str → Bool
  | [] => startsWith pat []
  | c :: t => startsWith pat (c :: t) || hasSub pat t

/-- Python `str.split(c)` (always returns at least one piece). -/
def splitOnChar (c : Char) : Str → List Str
  | [] => [[]]
  | a :: rest =>
    let r := splitOnChar c rest
    if a = c then [] :: r
    else
      match r with
      | h :: t => (a :: h) :: t
      | [] => [[a]]

/-- Value of a hex digit, if any. -/
def hexVal (c : Char) : Option Nat :=
  if '0' ≤ c ∧ c ≤ '9' then some (c.toNat - '0'.toNat)
  else if 'a' ≤ c ∧ c ≤ 'f' then some (c.toNat - 'a'.toNat + 10)
  else if 'A' ≤ c ∧ c ≤ 'F' then some (c.toNat - 'A'.toNat + 10)
  else none

/-- Modelled from the spec: `pytube.compat.unquote` (pytube/compat.py is not
under src/). Percent-decodes a string; a malformed escape is kept literally. -/
def unquote : Str → Str
  | [] => []
  | '%' :: h1 :: h2 :: rest =>
    match hexVal h1, hexVal h2 with
    | some a, some b => Char.ofNat (16 * a + b) :: unquote rest
    | _, _ => '%' :: unquote (h1 :: h2 :: rest)
  | c :: rest => c :: unquote rest

/-- Split a query field at its first `=`, if it has one. -/
def splitOnFirstEq : Str → Option (Str × Str)
  | [] => none
  | '=' :: rest => some ([], rest)
  | c :: rest => (splitOnFirstEq rest).map (fun p => (c :: p.1, p.2))

/-- Modelled from the spec: `pytube.compat.parse_qsl` (pytube/compat.py is not
under src/). Splits a query string on `&`, splits each field at its first `=`,
and URL-decodes each key/value pair; fields without `=` are dropped. -/
def parse_qsl (s : Str) : List (Str × Str) :=
  (splitOnChar '&' s).filterMap
    (fun seg => (splitOnFirstEq seg).map (fun p => (unquote p.1, unquote p.2)))

/-- One comma-separated segment of the manifest string, turned into an ordered
record of key/value pairs: `{k: unquote(v) for k, v in parse_qsl(i)}`. -/
def descrambleSegment (i : Str) : List (Str × Str) :=
  (parse_qsl i).map (fun kv => (kv.1, unquote kv.2))

/-- `apply_descrambler` (mixins.py). The source replaces
`stream_data[key]` in place; the model returns the sequence of records that
replaces the encoded string value stored under the given key. -/
def apply_descrambler (value : Str) : List (List (Str × Str)) :=
  (splitOnChar ',' value).map descrambleSegment

/-- Join segments with a separating character (left inverse of `splitOnChar`
for separator-free segments). -/
def joinChar (c : Char) : List Str → Str
  | [] => []
  | [s] => s
  | s :: rest => s ++ c :: joinChar c rest

/-- The resolved-signature marker `'signature='` tested by
`'signature=' in url` in `apply_signature`. -/
def sigMarker : Str := "signature=".data

/-- One raw manifest entry as consumed by `apply_signature`: its signed-or-not
`url`, its scrambled-signature token `s`, and its `itag`. -/
structure RawStream where
  url : Str
  s : Str
  itag : Str
deriving DecidableEq

/-- `apply_signature` (mixins.py). The external solver
`cipher.get_signature(js, token)` is passed in as a function returning
`Except`; a solver exception aborts the loop and propagates, exactly as an
uncaught Python exception would. The source mutates the manifest in place;
the model returns the updated manifest. -/
def apply_signature (solver : Str → Str → Except Str Str) (js : Str) :
    List RawStream → Except Str (List RawStream)
  | [] => .ok []
  | st :: rest =>
    if hasSub sigMarker st.url then
      (apply_signature solver js rest).map (fun r => st :: r)
    else
      match solver js st.s with
      | .error e => .error e
      | .ok signature =>
        (apply_signature solver js rest).map
          (fun r => { st with url := st.url ++ "&signature=".data ++ signature } :: r)

/-- Modelled from the spec: the `SharedObserverState` / `Monostate`
(pytube/monostate.py is not under src/) holds an optional progress callback
and an optional completion callback. The model records whether each callback
is registered; invocations are recorded as trace events. -/
structure Monostate where
  on_progress : Bool
  on_complete : Bool
deriving DecidableEq

/-- Nested `videoDetails` object inside `player_response`. -/
structure VideoDetails where
  title : Option Str
deriving DecidableEq

/-- Nested `player_response` object of the player-config mapping. -/
structure PlayerResponse where
  videoDetails : Option VideoDetails
deriving DecidableEq

/-- The player-config mapping, restricted to the keys the source reads:
`title` and `player_response.videoDetails.title`. An absent key is `none`. -/
structure PlayerConfigArgs where
  title : Option Str
  player_response : Option PlayerResponse
deriving DecidableEq

/-- Quality/profile attributes looked up by itag (streams.py lines 65-72). -/
structure Profile where
  is_dash : Bool
  abr : Option Str
  fps : Option Nat
  resolution : Option Str
  is_3d : Bool
  is_hdr : Bool
  is_live : Bool
deriving DecidableEq

/-- The `Stream` container (streams.py), with the fields `__init__` sets. -/
structure Stream where
  _monostate : Monostate
  url : Str
  itag : Nat
  mime_type : Str
  codecs : List Str
  type : Str
  subtype : Str
  video_codec : Option Str
  audio_codec : Option Str
  _filesize : Option Nat
  is_dash : Bool
  abr : Option Str
  fps : Option Nat
  resolution : Option Str
  is_3d : Bool
  is_hdr : Bool
  is_live : Bool
  player_config_args : PlayerConfigArgs
deriving DecidableEq

/-- `Stream.is_adaptive` (streams.py line 85): `bool(len(self.codecs) % 2)`,
as a function of the codec list. -/
def is_adaptive (codecs : List Str) : Bool :=
  codecs.length % 2 != 0

/-- `Stream.is_progressive`: `not self.is_adaptive`. -/
def is_progressive (codecs : List Str) : Bool :=
  !is_adaptive codecs

/-- `Stream.includes_audio_track`: `self.is_progressive or self.type == "audio"`. -/
def includes_audio_track (codecs : List Str) (ty : Str) : Bool :=
  is_progressive codecs || decide (ty = "audio".data)

/-- `Stream.includes_video_track`: `self.is_progressive or self.type == "video"`. -/
def includes_video_track (codecs : List Str) (ty : Str) : Bool :=
  is_progressive codecs || decide (ty = "video".data)

/-- `Stream.parse_codecs` (streams.py lines 111-132). `none` models a Python
runtime error: the progressive branch unpacks `video, audio = self.codecs`
(exactly two elements) and the adaptive branches index `self.codecs[0]`. -/
def parse_codecs (codecs : List Str) (ty : Str) : Option (Option Str × Option Str) :=
  if !is_adaptive codecs then
    match codecs with
    | [v, a] => some (some v, some a)
    | _ => none
  else if includes_video_track codecs ty then
    match codecs with
    | v :: _ => some (some v, none)
    | [] => none
  else if includes_audio_track codecs ty then
    match codecs with
    | a :: _ => some (none, some a)
    | [] => none
  else some (none, none)

/-- `Stream.title` nested lookup
`player_config_args.get("player_response", {}).get("videoDetails", {}).get("title")`. -/
def nestedTitleOf (pca : PlayerConfigArgs) : Option Str :=
  match pca.player_response with
  | some pr =>
    match pr.videoDetails with
    | some vd => vd.title
    | none => none
  | none => none

/-- Python's `a or b` for an optional string `a`: `a` is used only when it is
present and truthy (non-empty); otherwise `b`. -/
def pyOrStr (a : Option Str) (b : Str) : Str :=
  match a with
  | some s => if s = [] then b else s
  | none => b

/-- `Stream.title` (streams.py lines 147-163). -/
def Stream.title (s : Stream) : Str :=
  pyOrStr s.player_config_args.title
    (pyOrStr (nestedTitleOf s.player_config_args) "Unknown YouTube Video Title".data)

/-- `Stream.default_filename`: `f"{safe_filename(self.title)}.{self.subtype}"`.
The external sanitizer `safe_filename` is a parameter. -/
def Stream.default_filename (s : Stream) (sanitize : Str → Str) : Str :=
  sanitize s.title ++ '.' :: s.subtype

/-- Drop leading spaces. -/
def dropSpaces : Str → Str
  | ' ' :: r => dropSpaces r
  | s => s

/-- Modelled from the spec: `extract.mime_type_codec` (pytube/extract.py is not
under src/). Parses `'video/webm; codecs="vp8, vorbis"'` into the mime type
`'video/webm'` and the ordered codec list `['vp8', 'vorbis']`; `none` models
the extraction error raised when the value does not match. -/
def mime_type_codec (ty : Str) : Option (Str × List Str) :=
  match splitOnChar ';' ty with
  | [mime, rest] =>
    let rest := dropSpaces rest
    if startsWith "codecs=\"".data rest then
      match (rest.drop 8).reverse with
      | '"' :: revBody =>
        some (mime, (splitOnChar ',' revBody.reverse).map dropSpaces)
      | _ => none
    else none
  | _ => none

/-- The unscrambled record consumed by `Stream.__init__`, restricted to the
keys it reads: `url`, `itag` (already converted to an integer) and `type`. -/
structure StreamRecord where
  url : Str
  itag : Nat
  type : Str
deriving DecidableEq

/-- Errors that can abort `Stream.__init__`. -/
inductive StreamError where
  /-- `extract.mime_type_codec` found no match in the `type` field. -/
  | regexMatchError
  /-- A tuple unpacking failed (`self.mime_type.split("/")` or
  `parse_codecs`). -/
  | valueError
  /-- Modelled from the spec: `UnknownFormatError` — the itag is absent from
  the static profile table (pytube/itags.py is not under src/). -/
  | unknownFormat (itag : Nat)
deriving DecidableEq

/-- Modelled from the spec: `get_format_profile` (pytube/itags.py is not under
src/) looks the itag up in the static profile table; an unknown itag is a
construction-time failure. The table is a parameter. -/
def get_format_profile (table : Nat → Option Profile) (itag : Nat) :
    Except StreamError Profile :=
  match table itag with
  | some p => .ok p
  | none => .error (.unknownFormat itag)

/-- `Stream.__init__` (streams.py lines 30-75), as a fallible constructor: an
error means the corresponding Python exception escaped `__init__` and no
descriptor was produced. -/
def Stream.mk? (stream : StreamRecord) (player_config_args : PlayerConfigArgs)
    (monostate : Monostate) (table : Nat → Option Profile) :
    Except StreamError Stream :=
  match mime_type_codec stream.type with
  | none => .error .regexMatchError
  | some (mime_type, codecs) =>
  match splitOnChar '/' mime_type with
  | [ty, subtype] =>
    match parse_codecs codecs ty with
    | none => .error .valueError
    | some (video_codec, audio_codec) =>
    match get_format_profile table stream.itag with
    | .error e => .error e
    | .ok profile => .ok {
      _monostate := monostate
      url := stream.url
      itag := stream.itag
      mime_type := mime_type
      codecs := codecs
      type := ty
      subtype := subtype
      video_codec := video_codec
      audio_codec := audio_codec
      _filesize := none
      is_dash := profile.is_dash
      abr := profile.abr
      fps := profile.fps
      resolution := profile.resolution
      is_3d := profile.is_3d
      is_hdr := profile.is_hdr
      is_live := profile.is_live
      player_config_args := player_config_args }
  | _ => .error .valueError

/-- `Stream.filesize` (streams.py lines 134-145). Returns the filesize, the
descriptor after the access (its `_filesize` cache possibly set), and the
number of `request.headers` transport calls issued (0 or 1). The transport is
the parameter `headers`, mapping a url to its remote content-length. -/
def Stream.filesize (s : Stream) (headers : Str → Nat) : Nat × Stream × Nat :=
  match s._filesize with
  | some n => (n, s, 0)
  | none =>
    let n := headers s.url
    (n, { s with _filesize := some n }, 1)

/-- The filesize value returned by an access to `Stream.filesize`. -/
def fsVal (s : Stream) (headers : Str → Nat) : Nat :=
  (s.filesize headers).1

/-- The descriptor state after an access to `Stream.filesize`. -/
def fsStream (s : Stream) (headers : Str → Nat) : Stream :=
  (s.filesize headers).2.1

/-- The number of transport `headers` requests an access to `Stream.filesize`
issues. -/
def fsReqs (s : Stream) (headers : Str → Nat) : Nat :=
  (s.filesize headers).2.2

/-- One observable step of the download pipeline: a chunk written to the sink,
an invocation of the registered progress callback (with the chunk and the
running `bytes_remaining` counter), or an invocation of the registered
completion callback. -/
inductive Event where
  | write (chunk : List Nat)
  | progress (chunk : List Nat) (bytes_remaining : Int)
  | complete
deriving DecidableEq

/-- `Stream.on_progress` (streams.py lines 260-291): write the chunk to the
sink, then invoke the registered progress callback, if any, with the chunk and
`bytes_remaining`. -/
def on_progress_events (m : Monostate) (chunk : List Nat) (bytes_remaining : Int) :
    List Event :=
  Event.write chunk :: (if m.on_progress then [Event.progress chunk bytes_remaining] else [])

/-- `Stream.on_complete` (streams.py lines 293-308): invoke the registered
completion callback, if any. -/
def on_complete_events (m : Monostate) : List Event :=
  if m.on_complete then [Event.complete] else []

/-- The shared chunk loop of `download` and `stream_to_buffer` (streams.py
lines 232-237 and 252-256): for each chunk, decrement `bytes_remaining` by the
chunk length, then run `on_progress`. Returns the emitted trace and the final
counter. -/
def downloadLoop (m : Monostate) : List (List Nat) → Int → List Event × Int
  | [], rem => ([], rem)
  | c :: rest, rem =>
    let rem' := rem - (c.length : Int)
    let r := downloadLoop m rest rem'
    (on_progress_events m c rem' ++ r.1, r.2)

/-- Total byte length of a chunk sequence. -/
def chunkLenSum (cs : List (List Nat)) : Nat :=
  (cs.map List.length).sum

/-- Expected progress-callback arguments: each chunk paired with the counter
value after it, starting the countdown at `rem`. -/
def remainders (rem : Int) : List (List Nat) → List (List Nat × Int)
  | [] => []
  | c :: rest => (c, rem - (c.length : Int)) :: remainders (rem - (c.length : Int)) rest

/-- The chunks written to the sink, in trace order. -/
def writesOf : List Event → List (List Nat)
  | [] => []
  | .write c :: r => c :: writesOf r
  | .progress _ _ :: r => writesOf r
  | .complete :: r => writesOf r

/-- The progress-callback invocations, in trace order. -/
def progressOf : List Event → List (List Nat × Int)
  | [] => []
  | .progress c n :: r => (c, n) :: progressOf r
  | .write _ :: r => progressOf r
  | .complete :: r => progressOf r

/-- The external collaborators of the download engine: filename sanitizer,
target-directory resolver, path join, the filesystem (size of the file at a
path, if one exists), and the transport (`request.headers` content-length and
`request.stream` chunk sequence). -/
structure DownloadEnv where
  sanitize : Str → Str
  target_directory : Option Str → Str
  path_join : Str → Str → Str
  file_size_at : Str → Option Nat
  headers : Str → Nat
  chunks : Str → List (List Nat)

/-- Observable outcome of one `download` call: the returned path, whether the
transport's chunk stream was invoked, the emitted trace, the final
`bytes_remaining` counter, and the descriptor state afterwards. -/
structure DownloadResult where
  path : Str
  streamed : Bool
  events : List Event
  bytes_remaining : Int
  stream' : Stream
deriving DecidableEq

/-- Filename resolution of `download` (streams.py lines 208-214). -/
def Stream.resolve_filename (s : Stream) (sanitize : Str → Str)
    (fn fnPre : Option Str) : Str :=
  let f :=
    match fn with
    | some name => sanitize name ++ '.' :: s.subtype
    | none => s.default_filename sanitize
  match fnPre with
  | some p => sanitize p ++ f
  | none => f

/-- The transfer of `download` lines 227-238 (also the body of
`stream_to_buffer`): fetch/cache the total size, run the chunk loop, then run
`on_complete`. -/
def runTransfer (s : Stream) (env : DownloadEnv) (file_path : Str) : DownloadResult :=
  let fs := fsVal s env.headers
  let s1 := fsStream s env.headers
  let r := downloadLoop s1._monostate (env.chunks s1.url) (fs : Int)
  { path := file_path
    streamed := true
    events := r.1 ++ on_complete_events s1._monostate
    bytes_remaining := r.2
    stream' := s1 }

/-- `Stream.download` (streams.py lines 176-239). The skip-existing check
`skip_existing and os.path.isfile(file_path) and
os.path.getsize(file_path) == self.filesize` evaluates `self.filesize` (and
hence may set the cache) only when the first two conjuncts hold. -/
def Stream.download (s : Stream) (env : DownloadEnv)
    (output_path fn fnPre : Option Str) (sk : Bool) : DownloadResult :=
  let file_path :=
    env.path_join (env.target_directory output_path) (s.resolve_filename env.sanitize fn fnPre)
  match sk, env.file_size_at file_path with
  | true, some sz =>
    if sz = fsVal s env.headers then
      { path := file_path
        streamed := false
        events := []
        bytes_remaining := 0
        stream' := fsStream s env.headers }
    else runTransfer (fsStream s env.headers) env file_path
  | _, _ => runTransfer s env file_path

/-- `Stream.stream_to_buffer` (streams.py lines 241-258): the same transfer
targeting an in-memory sink; returns the trace, the final counter, and the
descriptor state afterwards. -/
def Stream.stream_to_buffer (s : Stream) (env : DownloadEnv) :
    List Event × Int × Stream :=
  let fs := fsVal s env.headers
  let s1 := fsStream s env.headers
  let r := downloadLoop s1._monostate (env.chunks s1.url) (fs : Int)
  (r.1 ++ on_complete_events s1._monostate, r.2, s1)

/-! ## Helper lemmas -/

theorem startsWith_self_append (pat r : Str) : startsWith pat (pat ++ r) = true := by
  induction pat with
  | nil => rfl
  | cons a as ih => simp [startsWith, ih]

theorem hasSub_of_startsWith {pat s : Str} (h : startsWith pat s = true) :
    hasSub pat s = true := by
  cases s with
  | nil => simpa [hasSub] using h
  | cons c t => simp [hasSub, h]

theorem hasSub_append_left (pat a b : Str) (h : hasSub pat b = true) :
    hasSub pat (a ++ b) = true := by
  induction a with
  | nil => simpa using h
  | cons c t ih => simp [hasSub, ih]

/-- A URL with `&signature=<sig>` appended contains the marker. -/
theorem signed_append (url sig : Str) :
    hasSub sigMarker (url ++ "&signature=".data ++ sig) = true := by
  have hsplit : url ++ "&signature=".data ++ sig = (url ++ ['&']) ++ (sigMarker ++ sig) := by
    have : "&signature=".data = '&' :: sigMarker := by decide
    simp [this, sigMarker]
  rw [hsplit]
  exact hasSub_append_left _ _ _ (hasSub_of_startsWith (startsWith_self_append _ _))

theorem apply_signature_all_signed (solver : Str → Str → Except Str Str) (js : Str) :
    ∀ m : List RawStream, (∀ st ∈ m, hasSub sigMarker st.url = true) →
      apply_signature solver js m = .ok m := by
  intro m h
  induction m with
  | nil => rfl
  | cons st rest ih =>
    have hst := h st (by simp)
    have hrest := ih (fun x hx => h x (by simp [hx]))
    simp [apply_signature, hst, hrest, Except.map]

theorem apply_signature_output_signed (solver : Str → Str → Except Str Str) (js : Str) :
    ∀ m m1 : List RawStream, apply_signature solver js m = .ok m1 →
      ∀ st ∈ m1, hasSub sigMarker st.url = true := by
  intro m
  induction m with
  | nil =>
    intro m1 h st hst
    simp [apply_signature] at h
    subst h
    simp at hst
  | cons st rest ih =>
    intro m1 h x hx
    by_cases hs : hasSub sigMarker st.url = true
    · rw [apply_signature] at h
      rw [if_pos hs] at h
      cases hr : apply_signature solver js rest with
      | error e => rw [hr] at h; simp [Except.map] at h
      | ok r =>
        rw [hr] at h
        simp only [Except.map] at h
        cases h
        rcases List.mem_cons.mp hx with h1 | h2
        · subst h1; exact hs
        · exact ih r hr x h2
    · rw [apply_signature] at h
      rw [if_neg hs] at h
      cases hsol : solver js st.s with
      | error e => rw [hsol] at h; cases h
      | ok signature =>
        rw [hsol] at h
        cases hr : apply_signature solver js rest with
        | error e => rw [hr] at h; simp [Except.map] at h
        | ok r =>
          rw [hr] at h
          simp only [Except.map] at h
          cases h
          rcases List.mem_cons.mp hx with h1 | h2
          · subst h1; exact signed_append _ _
          · exact ih r hr x h2

theorem apply_signature_error_of_mem (solver : Str → Str → Except Str Str) (js : Str) :
    ∀ m : List RawStream,
      (∃ st ∈ m, hasSub sigMarker st.url = false ∧ ∃ e, solver js st.s = .error e) →
      ∃ e, apply_signature solver js m = .error e := by
  intro m
  induction m with
  | nil => rintro ⟨st, hst, -⟩; simp at hst
  | cons st rest ih =>
    rintro ⟨x, hx, hxu, e, hxe⟩
    by_cases hs : hasSub sigMarker st.url = true
    · have hxr : x ∈ rest := by
        rcases List.mem_cons.mp hx with h1 | h2
        · subst h1; rw [hs] at hxu; cases hxu
        · exact h2
      obtain ⟨e', he'⟩ := ih ⟨x, hxr, hxu, e, hxe⟩
      refine ⟨e', ?_⟩
      rw [apply_signature, if_pos hs, he']
      rfl
    · cases hsol : solver js st.s with
      | error e0 =>
        refine ⟨e0, ?_⟩
        rw [apply_signature, if_neg hs, hsol]
      | ok signature =>
        have hxr : x ∈ rest := by
          rcases List.mem_cons.mp hx with h1 | h2
          · subst h1; rw [hsol] at hxe; cases hxe
          · exact h2
        obtain ⟨e', he'⟩ := ih ⟨x, hxr, hxu, e, hxe⟩
        refine ⟨e', ?_⟩
        rw [apply_signature, if_neg hs, hsol, he']
        rfl

theorem fsStream_filesize_cache (s : Stream) (hd : Str → Nat) :
    (fsStream s hd)._filesize = some (fsVal s hd) := by
  cases h : s._filesize <;> simp [fsStream, fsVal, Stream.filesize, h]

theorem fsStream_monostate (s : Stream) (hd : Str → Nat) :
    (fsStream s hd)._monostate = s._monostate := by
  cases h : s._filesize <;> simp [fsStream, Stream.filesize, h]

theorem fsStream_url (s : Stream) (hd : Str → Nat) :
    (fsStream s hd).url = s.url := by
  cases h : s._filesize <;> simp [fsStream, Stream.filesize, h]

theorem fsVal_fsStream (s : Stream) (hd hd' : Str → Nat) :
    fsVal (fsStream s hd) hd' = fsVal s hd := by
  cases h : s._filesize <;> simp [fsStream, fsVal, Stream.filesize, h]

theorem fsStream_fsStream (s : Stream) (hd hd' : Str → Nat) :
    fsStream (fsStream s hd) hd' = fsStream s hd := by
  cases h : s._filesize <;> simp [fsStream, Stream.filesize, h]

theorem fsReqs_fsStream (s : Stream) (hd hd' : Str → Nat) :
    fsReqs (fsStream s hd) hd' = 0 := by
  cases h : s._filesize <;> simp [fsStream, fsReqs, Stream.filesize, h]

theorem chunkLenSum_cons (c : List Nat) (cs : List (List Nat)) :
    chunkLenSum (c :: cs) = c.length + chunkLenSum cs := by
  simp [chunkLenSum]

theorem downloadLoop_snd (m : Monostate) (cs : List (List Nat)) (rem : Int) :
    (downloadLoop m cs rem).2 = rem - (chunkLenSum cs : Int) := by
  induction cs generalizing rem with
  | nil => simp [downloadLoop, chunkLenSum]
  | cons c rest ih =>
    simp only [downloadLoop, ih, chunkLenSum_cons]
    push_cast
    ring

theorem writesOf_append (a b : List Event) :
    writesOf (a ++ b) = writesOf a ++ writesOf b := by
  induction a with
  | nil => rfl
  | cons e r ih => cases e <;> simp [writesOf, ih]

theorem progressOf_append (a b : List Event) :
    progressOf (a ++ b) = progressOf a ++ progressOf b := by
  induction a with
  | nil => rfl
  | cons e r ih => cases e <;> simp [progressOf, ih]

theorem writesOf_on_progress_events (m : Monostate) (c : List Nat) (rem : Int) :
    writesOf (on_progress_events m c rem) = [c] := by
  cases h : m.on_progress <;> simp [on_progress_events, h, writesOf]

theorem progressOf_on_progress_events (m : Monostate) (c : List Nat) (rem : Int) :
    progressOf (on_progress_events m c rem) =
      if m.on_progress then [(c, rem)] else [] := by
  cases h : m.on_progress <;> simp [on_progress_events, h, progressOf]

theorem count_complete_on_progress_events (m : Monostate) (c : List Nat) (rem : Int) :
    (on_progress_events m c rem).count Event.complete = 0 := by
  cases h : m.on_progress <;> simp [on_progress_events, h, List.count_cons]

theorem writesOf_downloadLoop (m : Monostate) (cs : List (List Nat)) (rem : Int) :
    writesOf (downloadLoop m cs rem).1 = cs := by
  induction cs generalizing rem with
  | nil => rfl
  | cons c rest ih =>
    simp [downloadLoop, writesOf_append, writesOf_on_progress_events, ih]

theorem progressOf_downloadLoop (m : Monostate) (cs : List (List Nat)) (rem : Int) :
    progressOf (downloadLoop m cs rem).1 =
      if m.on_progress then remainders rem cs else [] := by
  induction cs generalizing rem with
  | nil => cases h : m.on_progress <;> simp [downloadLoop, progressOf, remainders]
  | cons c rest ih =>
    cases h : m.on_progress <;>
      simp [downloadLoop, progressOf_append, progressOf_on_progress_events, h, ih, remainders]

theorem count_complete_downloadLoop (m : Monostate) (cs : List (List Nat)) (rem : Int) :
    ((downloadLoop m cs rem).1).count Event.complete = 0 := by
  induction cs generalizing rem with
  | nil => rfl
  | cons c rest ih =>
    simp [downloadLoop, List.count_append, count_complete_on_progress_events, ih]

theorem remainders_length (rem : Int) (cs : List (List Nat)) :
    (remainders rem cs).length = cs.length := by
  induction cs generalizing rem with
  | nil => rfl
  | cons c rest ih => simp [remainders, ih]

theorem remainders_get? (rem : Int) (cs : List (List Nat)) (i : Nat) (h : i < cs.length) :
    (remainders rem cs).get? i =
      some (cs.get ⟨i, h⟩, rem - (chunkLenSum (cs.take (i + 1)) : Int)) := by
  induction cs generalizing rem i with
  | nil => simp at h
  | cons c rest ih =>
    cases i with
    | zero => simp [remainders, chunkLenSum]
    | succ j =>
      have hj : j < rest.length := by simpa using h
      simp only [remainders, List.get?_cons_succ, List.take_succ_cons,
        chunkLenSum_cons, List.get]
      rw [ih _ _ hj]
      congr 1
      ext
      · rfl
      · push_cast
        ring_nf

theorem runTransfer_streamed (s : Stream) (env : DownloadEnv) (fp : Str) :
    (runTransfer s env fp).streamed = true := rfl

theorem runTransfer_events (s : Stream) (env : DownloadEnv) (fp : Str) :
    (runTransfer s env fp).events =
      (downloadLoop s._monostate (env.chunks s.url) ((fsVal s env.headers : Int))).1
        ++ on_complete_events s._monostate := by
  simp [runTransfer, fsStream_monostate, fsStream_url]

theorem runTransfer_rem (s : Stream) (env : DownloadEnv) (fp : Str) :
    (runTransfer s env fp).bytes_remaining =
      (downloadLoop s._monostate (env.chunks s.url) ((fsVal s env.headers : Int))).2 := by
  simp [runTransfer, fsStream_monostate, fsStream_url]

theorem runTransfer_stream' (s : Stream) (env : DownloadEnv) (fp : Str) :
    (runTransfer s env fp).stream' = fsStream s env.headers := rfl

theorem download_path (s : Stream) (env : DownloadEnv) (op fn fnPre : Option Str)
    (sk : Bool) :
    (Stream.download s env op fn fnPre sk).path =
      env.path_join (env.target_directory op)
        (s.resolve_filename env.sanitize fn fnPre) := by
  simp only [Stream.download]
  split
  · split <;> rfl
  · rfl

theorem download_trace (s : Stream) (env : DownloadEnv) (op fn fnPre : Option Str)
    (sk : Bool) :
    (Stream.download s env op fn fnPre sk).streamed = true →
      (Stream.download s env op fn fnPre sk).events =
        (downloadLoop s._monostate (env.chunks s.url) ((fsVal s env.headers : Int))).1
          ++ on_complete_events s._monostate ∧
      (Stream.download s env op fn fnPre sk).bytes_remaining =
        (downloadLoop s._monostate (env.chunks s.url) ((fsVal s env.headers : Int))).2 := by
  simp only [Stream.download]
  split
  · split
    · intro h; cases h
    · intro _
      rw [runTransfer_events, runTransfer_rem, fsStream_monostate, fsStream_url,
        fsVal_fsStream]
      exact ⟨rfl, rfl⟩
  · intro _
    exact ⟨runTransfer_events .., runTransfer_rem ..⟩

theorem download_stream'_cache (s : Stream) (env : DownloadEnv)
    (op fn fnPre : Option Str) (sk : Bool) :
    ((Stream.download s env op fn fnPre sk).stream')._filesize =
      some (fsVal s env.headers) := by
  simp only [Stream.download]
  split
  · split
    · exact fsStream_filesize_cache ..
    · rw [runTransfer_stream', fsStream_fsStream]
      exact fsStream_filesize_cache ..
  · rw [runTransfer_stream']
    exact fsStream_filesize_cache ..

theorem stream_to_buffer_trace (s : Stream) (env : DownloadEnv) :
    (Stream.stream_to_buffer s env).1 =
      (downloadLoop s._monostate (env.chunks s.url) ((fsVal s env.headers : Int))).1
        ++ on_complete_events s._monostate ∧
    (Stream.stream_to_buffer s env).2.1 =
      (downloadLoop s._monostate (env.chunks s.url) ((fsVal s env.headers : Int))).2 ∧
    (Stream.stream_to_buffer s env).2.2 = fsStream s env.headers := by
  refine ⟨?_, ?_, rfl⟩ <;>
    simp [Stream.stream_to_buffer, fsStream_monostate, fsStream_url]

theorem getLast?_append_singleton (l : List Event) (a : Event) :
    (l ++ [a]).getLast? = some a := by
  rw [List.getLast?_append_cons]
  rfl

theorem splitOnChar_not_mem {c : Char} {s : Str} (h : c ∉ s) :
    splitOnChar c s = [s] := by
  induction s with
  | nil => rfl
  | cons a t ih =>
    have hac : ¬ a = c := fun hh => h (hh ▸ List.mem_cons_self a t)
    have hct : c ∉ t := fun hh => h (List.mem_cons_of_mem a hh)
    simp [splitOnChar, hac, ih hct]

theorem splitOnChar_append_sep {c : Char} {s : Str} (t : Str) (h : c ∉ s) :
    splitOnChar c (s ++ c :: t) = s :: splitOnChar c t := by
  induction s with
  | nil => simp [splitOnChar]
  | cons a r ih =>
    have hac : ¬ a = c := fun hh => h (hh ▸ List.mem_cons_self a r)
    have hcr : c ∉ r := fun hh => h (List.mem_cons_of_mem a hh)
    simp [splitOnChar, hac, ih hcr]

theorem splitOnChar_joinChar {c : Char} :
    ∀ segs : List Str, segs ≠ [] → (∀ t ∈ segs, c ∉ t) →
      splitOnChar c (joinChar c segs) = segs := by
  intro segs
  induction segs with
  | nil => intro h; exact absurd rfl h
  | cons s rest ih =>
    intro _ h
    cases rest with
    | nil => simpa [joinChar] using splitOnChar_not_mem (h s (by simp))
    | cons s2 r2 =>
      have hj : joinChar c (s :: s2 :: r2) = s ++ c :: joinChar c (s2 :: r2) := rfl
      rw [hj, splitOnChar_append_sep _ (h s (by simp)),
        ih (by simp) (fun x hx => h x (by simp [hx]))]

/-! ## Concrete fixtures used by witnesses and counterexamples -/

/-- A monostate with both callbacks registered. -/
def testMono : Monostate := ⟨true, true⟩

/-- A player config with an explicit title. -/
def testPCA : PlayerConfigArgs := ⟨some "My Video".data, none⟩

/-- A concrete progressive descriptor with a cached filesize of 3 bytes. -/
def testStream : Stream :=
  { _monostate := testMono
    url := "u".data
    itag := 22
    mime_type := "video/mp4".data
    codecs := ["avc1".data, "mp4a".data]
    type := "video".data
    subtype := "mp4".data
    video_codec := some "avc1".data
    audio_codec := some "mp4a".data
    _filesize := some 3
    is_dash := false
    abr := none
    fps := some 30
    resolution := some "720p".data
    is_3d := false
    is_hdr := false
    is_live := false
    player_config_args := testPCA }

/-- A concrete environment: a 3-byte stream arriving in chunks of 2 and 1
bytes, no pre-existing file. -/
def testEnv : DownloadEnv :=
  { sanitize := id
    target_directory := fun _ => "/tmp".data
    path_join := fun a b => a ++ '/' :: b
    file_size_at := fun _ => none
    headers := fun _ => 3
    chunks := fun _ => [[10, 20], [30]] }

/-- `testEnv` with a 3-byte file already present at every path. -/
def testEnvExisting : DownloadEnv :=
  { testEnv with file_size_at := fun _ => some 3 }

/-! ## Claims -/

/-- C1: for a descriptor whose remote content-length is `T` and a transport
chunk sequence `c1..cn` with `Σ len(ci) = T`, both `download` (when it
actually transfers) and `stream_to_buffer` produce the same trace; the chunks
are written to the sink in order; after chunk `i` the running
`bytes_remaining` counter equals `T - Σ len(c1..ci)` and the registered
progress callback (if any) is invoked once per chunk with exactly that value;
the final counter is 0; and the registered completion callback (if any) is
invoked exactly once, after the final chunk. -/
theorem c1_progress_accounting (s : Stream) (env : DownloadEnv)
    (op fn fnPre : Option Str) (sk : Bool) (T : Nat)
    (hT : fsVal s env.headers = T)
    (hsum : chunkLenSum (env.chunks s.url) = T)
    (hstr : (Stream.download s env op fn fnPre sk).streamed = true) :
    (Stream.download s env op fn fnPre sk).events = (Stream.stream_to_buffer s env).1 ∧
    writesOf (Stream.download s env op fn fnPre sk).events = env.chunks s.url ∧
    (s._monostate.on_progress = true →
      progressOf (Stream.download s env op fn fnPre sk).events =
        remainders (T : Int) (env.chunks s.url) ∧
      ∀ i (h : i < (env.chunks s.url).length),
        (progressOf (Stream.download s env op fn fnPre sk).events).get? i =
          some ((env.chunks s.url).get ⟨i, h⟩,
            (T : Int) - (chunkLenSum ((env.chunks s.url).take (i + 1)) : Int))) ∧
    (s._monostate.on_progress = false →
      progressOf (Stream.download s env op fn fnPre sk).events = []) ∧
    (Stream.download s env op fn fnPre sk).bytes_remaining = 0 ∧
    (Stream.stream_to_buffer s env).2.1 = 0 ∧
    (s._monostate.on_complete = true →
      (Stream.download s env op fn fnPre sk).events.count Event.complete = 1 ∧
      (Stream.download s env op fn fnPre sk).events.getLast? = some Event.complete) ∧
    (s._monostate.on_complete = false →
      (Stream.download s env op fn fnPre sk).events.count Event.complete = 0) := by
  obtain ⟨hev, hrem⟩ := download_trace s env op fn fnPre sk hstr
  obtain ⟨bev, brem, -⟩ := stream_to_buffer_trace s env
  rw [hT] at hev hrem bev brem
  refine ⟨?_, ?_, ?_, ?_, ?_, ?_, ?_, ?_⟩
  · rw [hev, bev]
  · rw [hev, writesOf_append, writesOf_downloadLoop]
    cases h : s._monostate.on_complete <;> simp [on_complete_events, h, writesOf]
  · intro hp
    constructor
    · rw [hev, progressOf_append, progressOf_downloadLoop, if_pos hp]
      cases h : s._monostate.on_complete <;> simp [on_complete_events, h, progressOf]
    · intro i h
      rw [hev, progressOf_append, progressOf_downloadLoop, if_pos hp]
      have hlt : i < (remainders ((T : Int)) (env.chunks s.url)).length := by
        rw [remainders_length]; exact h
      rw [List.get?_append hlt, remainders_get? (T : Int) (env.chunks s.url) i h]
  · intro hp
    rw [hev, progressOf_append, progressOf_downloadLoop, if_neg (by simp [hp])]
    cases h : s._monostate.on_complete <;> simp [on_complete_events, h, progressOf]
  · rw [hrem, downloadLoop_snd, hsum]
    ring
  · rw [brem, downloadLoop_snd, hsum]
    ring
  · intro hc
    constructor
    · rw [hev, List.count_append, count_complete_downloadLoop, on_complete_events, if_pos hc]
      rfl
    · rw [hev, on_complete_events, if_pos hc]
      exact getLast?_append_singleton _ _
  · intro hc
    rw [hev, List.count_append, count_complete_downloadLoop, on_complete_events,
      if_neg (by simp [hc])]
    rfl

/-- C1 witness: a concrete 3-byte download in chunks `[10,20]` and `[30]`. -/
theorem c1_progress_accounting_witness :
    fsVal testStream testEnv.headers = 3 ∧
    chunkLenSum (testEnv.chunks testStream.url) = 3 ∧
    (Stream.download testStream testEnv none none none false).streamed = true ∧
    writesOf (Stream.download testStream testEnv none none none false).events =
      testEnv.chunks testStream.url :=
  ⟨rfl, rfl, rfl,
    (c1_progress_accounting testStream testEnv none none none false 3 rfl rfl rfl).2.1⟩

/-- C2: with `skip_existing = true`, when a file already exists at the
resolved target path with size equal to the descriptor's content-length,
`download` returns that path without invoking the transport's chunk stream:
no bytes are written and no progress or completion callback is invoked. -/
theorem c2_skip_existing (s : Stream) (env : DownloadEnv) (op fn fnPre : Option Str)
    (h : env.file_size_at ((Stream.download s env op fn fnPre true).path) =
      some (fsVal s env.headers)) :
    (Stream.download s env op fn fnPre true).streamed = false ∧
    (Stream.download s env op fn fnPre true).events = [] ∧
    writesOf (Stream.download s env op fn fnPre true).events = [] ∧
    progressOf (Stream.download s env op fn fnPre true).events = [] ∧
    (Stream.download s env op fn fnPre true).events.count Event.complete = 0 := by
  rw [download_path] at h
  simp only [Stream.download, h]
  simp [writesOf, progressOf]

/-- C2 witness: a 3-byte file already on disk for a 3-byte stream. -/
theorem c2_skip_existing_witness :
    testEnvExisting.file_size_at
        ((Stream.download testStream testEnvExisting none none none true).path) =
      some (fsVal testStream testEnvExisting.headers) ∧
    (Stream.download testStream testEnvExisting none none none true).streamed = false ∧
    (Stream.download testStream testEnvExisting none none none true).events = [] :=
  ⟨rfl,
    (c2_skip_existing testStream testEnvExisting none none none rfl).1,
    (c2_skip_existing testStream testEnvExisting none none none rfl).2.1⟩

/-- C9: the filesize cache is set at most once. An access on an uncached
descriptor issues exactly one `headers` request and stores the result; an
access on a cached descriptor returns the cache, issues no request and leaves
the descriptor unchanged; any access after a first access issues no further
request and returns the same value; and `download` / `stream_to_buffer` leave
the cache set to the descriptor's content-length (they never reset it). -/
theorem c9_filesize_memoized (s : Stream) (hd hd' : Str → Nat) :
    (s._filesize = none →
      fsVal s hd = hd s.url ∧ fsReqs s hd = 1 ∧
      fsStream s hd = { s with _filesize := some (hd s.url) }) ∧
    (∀ n, s._filesize = some n →
      fsVal s hd = n ∧ fsReqs s hd = 0 ∧ fsStream s hd = s) ∧
    (fsVal (fsStream s hd) hd' = fsVal s hd ∧
      fsStream (fsStream s hd) hd' = fsStream s hd ∧
      fsReqs (fsStream s hd) hd' = 0) ∧
    (∀ (env : DownloadEnv) (op fn fnPre : Option Str) (sk : Bool),
      ((Stream.download s env op fn fnPre sk).stream')._filesize =
        some (fsVal s env.headers)) ∧
    (∀ env : DownloadEnv,
      ((Stream.stream_to_buffer s env).2.2)._filesize = some (fsVal s env.headers)) := by
  refine ⟨?_, ?_, ⟨fsVal_fsStream .., fsStream_fsStream .., fsReqs_fsStream ..⟩,
    fun env op fn fnPre sk => download_stream'_cache .., fun env => ?_⟩
  · intro h
    refine ⟨?_, ?_, ?_⟩ <;> simp [fsVal, fsReqs, fsStream, Stream.filesize, h]
  · intro n h
    refine ⟨?_, ?_, ?_⟩ <;> simp [fsVal, fsReqs, fsStream, Stream.filesize, h]
  · rw [(stream_to_buffer_trace s env).2.2]
    exact fsStream_filesize_cache ..

/-- C9 witness: the cached descriptor answers without a request; the uncached
one issues exactly one. -/
theorem c9_filesize_memoized_witness :
    testStream._filesize = some 3 ∧
    fsVal testStream testEnv.headers = 3 ∧
    fsReqs testStream testEnv.headers = 0 ∧
    ({ testStream with _filesize := none } : Stream)._filesize = none ∧
    fsReqs { testStream with _filesize := none } testEnv.headers = 1 :=
  ⟨rfl,
    ((c9_filesize_memoized testStream testEnv.headers testEnv.headers).2.1 3 rfl).1,
    ((c9_filesize_memoized testStream testEnv.headers testEnv.headers).2.1 3 rfl).2.1,
    rfl,
    ((c9_filesize_memoized { testStream with _filesize := none }
      testEnv.headers testEnv.headers).1 rfl).2.1⟩

/-- A solver that always fails, with a fixed error carrying no entry data. -/
def cexSolver : Str → Str → Except Str Str :=
  fun _ _ => .error "could not find transform".data

/-- An unsigned manifest entry with itag 1. -/
def cexEntryA : RawStream := ⟨"u".data, "tok".data, "1".data⟩

/-- The same unsigned manifest entry, except its itag is 2. -/
def cexEntryB : RawStream := ⟨"u".data, "tok".data, "2".data⟩

/-- An already-signed manifest entry. -/
def signedEntry : RawStream := ⟨"https://v?signature=abc".data, "tok".data, "22".data⟩

/-- C3 counterexample: the error `apply_signature` propagates on a solver
failure is the solver's error unchanged, and two manifests that differ only in
the failing entry's itag produce the *same* error — so the propagated error
does not identify the failing entry's itag. -/
theorem c3_error_lacks_itag :
    apply_signature cexSolver "js".data [cexEntryA] =
      .error "could not find transform".data ∧
    apply_signature cexSolver "js".data [cexEntryB] =
      .error "could not find transform".data ∧
    cexEntryA.itag ≠ cexEntryB.itag :=
  ⟨rfl, rfl, by decide⟩

/-- C3 (amended): a solver failure on an unsigned entry is propagated by
`apply_signature` — neither swallowed nor silently skipped — as the solver's
own error; in particular a failure on the first entry surfaces that exact
error. (The error does not identify the entry's itag.) -/
theorem c3_solver_error_propagates :
    (∀ (solver : Str → Str → Except Str Str) (js : Str) (m : List RawStream),
      (∃ st ∈ m, hasSub sigMarker st.url = false ∧ ∃ e, solver js st.s = .error e) →
      ∃ e, apply_signature solver js m = .error e) ∧
    (∀ (solver : Str → Str → Except Str Str) (js : Str) (st : RawStream)
      (rest : List RawStream) (e : Str),
      hasSub sigMarker st.url = false → solver js st.s = .error e →
      apply_signature solver js (st :: rest) = .error e) := by
  constructor
  · exact fun solver js => apply_signature_error_of_mem solver js
  · intro solver js st rest e hs he
    have hs' : ¬ (hasSub sigMarker st.url = true) := by simp [hs]
    rw [apply_signature, if_neg hs', he]

/-- C3 witness: the failing solver's error surfaces unchanged on a concrete
one-entry manifest. -/
theorem c3_solver_error_propagates_witness :
    hasSub sigMarker cexEntryA.url = false ∧
    cexSolver "js".data cexEntryA.s = .error "could not find transform".data ∧
    apply_signature cexSolver "js".data [cexEntryA] =
      .error "could not find transform".data :=
  ⟨by decide, rfl,
    c3_solver_error_propagates.2 cexSolver "js".data cexEntryA [] _ (by decide) rfl⟩

/-- C5: an entry whose url already contains `signature=` is skipped untouched,
so a manifest of already-signed entries is a fixed point, and applying
signature resolution to the output of a successful first run reproduces that
output exactly. -/
theorem c5_signature_idempotent :
    (∀ (solver : Str → Str → Except Str Str) (js : Str) (m : List RawStream),
      (∀ st ∈ m, hasSub sigMarker st.url = true) →
      apply_signature solver js m = .ok m) ∧
    (∀ (solver : Str → Str → Except Str Str) (js : Str) (m m1 : List RawStream),
      apply_signature solver js m = .ok m1 →
      apply_signature solver js m1 = .ok m1) :=
  ⟨fun solver js => apply_signature_all_signed solver js,
    fun solver js m m1 h =>
      apply_signature_all_signed solver js m1
        (apply_signature_output_signed solver js m m1 h)⟩

/-- C5 witness: a pre-signed entry passes through unchanged, even under a
solver that always fails; a second run reproduces the first run's output. -/
theorem c5_signature_idempotent_witness :
    hasSub sigMarker signedEntry.url = true ∧
    apply_signature cexSolver "js".data [signedEntry] = .ok [signedEntry] :=
  ⟨by decide,
    c5_signature_idempotent.2 cexSolver "js".data [signedEntry] [signedEntry]
      (c5_signature_idempotent.1 cexSolver "js".data [signedEntry] (by decide))⟩

/-- C6: `apply_descrambler` splits the encoded value on commas and URL-decodes
each segment's key/value pairs in input order; in particular
`"itag=5&url=u1,itag=6&url=u2"` becomes exactly the ordered records
`[{itag:"5", url:"u1"}, {itag:"6", url:"u2"}]`. -/
theorem c6_descrambler_roundtrip :
    (∀ segs : List Str, segs ≠ [] → (∀ t ∈ segs, ',' ∉ t) →
      apply_descrambler (joinChar ',' segs) = segs.map descrambleSegment) ∧
    apply_descrambler "itag=5&url=u1,itag=6&url=u2".data =
      [[("itag".data, "5".data), ("url".data, "u1".data)],
       [("itag".data, "6".data), ("url".data, "u2".data)]] := by
  constructor
  · intro segs hne h
    unfold apply_descrambler
    rw [splitOnChar_joinChar segs hne h]
  · decide

/-- C6 witness: the split/decode law applied to the two concrete segments. -/
theorem c6_descrambler_roundtrip_witness :
    apply_descrambler (joinChar ',' ["itag=5&url=u1".data, "itag=6&url=u2".data]) =
      ["itag=5&url=u1".data, "itag=6&url=u2".data].map descrambleSegment :=
  c6_descrambler_roundtrip.1 _ (by simp) (by decide)

theorem is_adaptive_iff (codecs : List Str) :
    is_adaptive codecs = true ↔ codecs.length % 2 = 1 := by
  simp only [is_adaptive, bne_iff_ne, ne_eq]
  omega

theorem is_progressive_iff (codecs : List Str) :
    is_progressive codecs = true ↔ codecs.length % 2 = 0 := by
  simp only [is_progressive, is_adaptive, Bool.not_eq_true', bne_eq_false_iff_eq]

/-- C4: classification is by codec-count parity (odd = adaptive, even =
progressive) and per-track codecs follow: progressive streams carry video
then audio; adaptive streams with major type `video` carry a video codec
only; adaptive streams with major type `audio` carry an audio codec only.
In particular `["vp8","vorbis"]` is progressive with both tracks, `["vp8"]`
adaptive video-only, `["vorbis"]` adaptive audio-only. -/
theorem c4_codec_parity (s : Stream) (hlen : s.codecs.length = 1 ∨ s.codecs.length = 2) :
    (is_adaptive s.codecs = true ↔ s.codecs.length % 2 = 1) ∧
    (is_progressive s.codecs = true ↔ s.codecs.length % 2 = 0) ∧
    (is_progressive s.codecs = true →
      ∃ v a, s.codecs = [v, a] ∧ parse_codecs s.codecs s.type = some (some v, some a)) ∧
    (is_adaptive s.codecs = true → s.type = "video".data →
      ∃ v, s.codecs = [v] ∧ parse_codecs s.codecs s.type = some (some v, none)) ∧
    (is_adaptive s.codecs = true → s.type = "audio".data →
      ∃ a, s.codecs = [a] ∧ parse_codecs s.codecs s.type = some (none, some a)) ∧
    (parse_codecs ["vp8".data, "vorbis".data] "video".data =
        some (some "vp8".data, some "vorbis".data) ∧
      is_progressive ["vp8".data, "vorbis".data] = true ∧
      includes_video_track ["vp8".data, "vorbis".data] "video".data = true ∧
      includes_audio_track ["vp8".data, "vorbis".data] "video".data = true) ∧
    (parse_codecs ["vp8".data] "video".data = some (some "vp8".data, none) ∧
      is_adaptive ["vp8".data] = true ∧
      includes_video_track ["vp8".data] "video".data = true ∧
      includes_audio_track ["vp8".data] "video".data = false) ∧
    (parse_codecs ["vorbis".data] "audio".data = some (none, some "vorbis".data) ∧
      is_adaptive ["vorbis".data] = true ∧
      includes_audio_track ["vorbis".data] "audio".data = true ∧
      includes_video_track ["vorbis".data] "audio".data = false) := by
  refine ⟨is_adaptive_iff _, is_progressive_iff _, ?_, ?_, ?_,
    by decide, by decide, by decide⟩
  · intro hp
    have hmod := (is_progressive_iff _).mp hp
    have h2 : s.codecs.length = 2 := by rcases hlen with h | h <;> omega
    obtain ⟨v, a, hva⟩ := List.length_eq_two.mp h2
    exact ⟨v, a, hva, by rw [hva]; simp [parse_codecs, is_adaptive]⟩
  · intro had hty
    have hmod := (is_adaptive_iff _).mp had
    have h1 : s.codecs.length = 1 := by rcases hlen with h | h <;> omega
    obtain ⟨v, hv⟩ := List.length_eq_one.mp h1
    exact ⟨v, hv, by rw [hv, hty]; simp [parse_codecs, is_adaptive, includes_video_track, is_progressive]⟩
  · intro had hty
    have hmod := (is_adaptive_iff _).mp had
    have h1 : s.codecs.length = 1 := by rcases hlen with h | h <;> omega
    obtain ⟨a, ha⟩ := List.length_eq_one.mp h1
    exact ⟨a, ha, by rw [ha, hty]; simp [parse_codecs, is_adaptive, includes_video_track, includes_audio_track, is_progressive]⟩

/-- C4 witness: the progressive two-codec fixture. -/
theorem c4_codec_parity_witness :
    (testStream.codecs.length = 1 ∨ testStream.codecs.length = 2) ∧
    (∃ v a, testStream.codecs = [v, a] ∧
      parse_codecs testStream.codecs testStream.type = some (some v, some a)) :=
  ⟨Or.inr rfl, (c4_codec_parity testStream (Or.inr rfl)).2.2.1 rfl⟩

/-- An adaptive descriptor whose major type is neither video nor audio. -/
def otherTypeStream : Stream :=
  { testStream with codecs := ["ec-3".data], type := "application".data }

/-- C10: an adaptive stream (odd codec count) whose major mime type is neither
`video` nor `audio` gets `(None, None)` from `parse_codecs` and reports
neither an audio track nor a video track. -/
theorem c10_adaptive_other_type (s : Stream)
    (hodd : s.codecs.length % 2 = 1)
    (hv : s.type ≠ "video".data) (ha : s.type ≠ "audio".data) :
    parse_codecs s.codecs s.type = some (none, none) ∧
    includes_audio_track s.codecs s.type = false ∧
    includes_video_track s.codecs s.type = false := by
  have had : is_adaptive s.codecs = true := (is_adaptive_iff _).mpr hodd
  have hpr : is_progressive s.codecs = false := by simp [is_progressive, had]
  have hdv : decide (s.type = "video".data) = false := by simp [hv]
  have hda : decide (s.type = "audio".data) = false := by simp [ha]
  refine ⟨?_, ?_, ?_⟩
  · simp [parse_codecs, includes_video_track, includes_audio_track, had, hpr, hdv, hda]
  · simp [includes_audio_track, hpr, hda]
  · simp [includes_video_track, hpr, hdv]

/-- C10 witness: a one-codec `application`-type descriptor. -/
theorem c10_adaptive_other_type_witness :
    otherTypeStream.codecs.length % 2 = 1 ∧
    otherTypeStream.type ≠ "video".data ∧
    otherTypeStream.type ≠ "audio".data ∧
    parse_codecs otherTypeStream.codecs otherTypeStream.type = some (none, none) :=
  ⟨rfl, by decide, by decide,
    (c10_adaptive_other_type otherTypeStream rfl (by decide) (by decide)).1⟩

/-- C7: a record whose itag is absent from the profile table makes descriptor
construction fail with `UnknownFormatError` naming that itag (given that the
earlier parsing stages of `__init__` succeed), and no descriptor is produced. -/
theorem c7_unknown_itag (rec : StreamRecord) (pca : PlayerConfigArgs) (m : Monostate)
    (table : Nat → Option Profile) (mt : Str) (codecs : List Str) (t st : Str)
    (vc ac : Option Str)
    (h1 : mime_type_codec rec.type = some (mt, codecs))
    (h2 : splitOnChar '/' mt = [t, st])
    (h3 : parse_codecs codecs t = some (vc, ac))
    (h4 : table rec.itag = none) :
    Stream.mk? rec pca m table = .error (.unknownFormat rec.itag) ∧
    ∀ s, Stream.mk? rec pca m table ≠ .ok s := by
  have hmk : Stream.mk? rec pca m table = .error (.unknownFormat rec.itag) := by
    simp [Stream.mk?, h1, h2, h3, get_format_profile, h4]
  exact ⟨hmk, fun s hs => by rw [hmk] at hs; cases hs⟩

/-- A well-formed record whose itag (9999) is unknown. -/
def unknownRec : StreamRecord := ⟨"u".data, 9999, "video/mp4; codecs=\"avc1\"".data⟩

/-- C7 witness: constructing from `unknownRec` over an empty table fails with
`UnknownFormatError 9999`. -/
theorem c7_unknown_itag_witness :
    mime_type_codec unknownRec.type = some ("video/mp4".data, ["avc1".data]) ∧
    Stream.mk? unknownRec testPCA testMono (fun _ => none) =
      .error (.unknownFormat 9999) :=
  ⟨by decide,
    (c7_unknown_itag unknownRec testPCA testMono (fun _ => none) "video/mp4".data
      ["avc1".data] "video".data "mp4".data (some "avc1".data) none
      (by decide) (by decide) (by decide) rfl).1⟩

/-- A descriptor whose explicit title is present but empty, with a non-empty
nested video-details title. -/
def c8Stream : Stream :=
  { testStream with
    player_config_args := ⟨some [], some ⟨some ⟨some "X".data⟩⟩⟩ }

/-- C8 counterexample: the explicit title field is present (the empty string),
yet the lookup does not return it — Python's `or` treats the present-but-empty
title as missing and falls through to the nested title. -/
theorem c8_title_empty_falls_through :
    c8Stream.player_config_args.title = some [] ∧
    Stream.title c8Stream = "X".data ∧
    Stream.title c8Stream ≠ [] :=
  ⟨rfl, rfl, by decide⟩

/-- C8 (amended): the title lookup is total in the model and follows the
precedence with *truthiness*: the explicit title is returned when present and
non-empty; else the nested video-details title when present and non-empty;
else the fixed placeholder. -/
theorem c8_title_precedence (s : Stream) :
    (∀ t, s.player_config_args.title = some t → t ≠ [] → Stream.title s = t) ∧
    (∀ u, (s.player_config_args.title = none ∨ s.player_config_args.title = some []) →
      nestedTitleOf s.player_config_args = some u → u ≠ [] → Stream.title s = u) ∧
    ((s.player_config_args.title = none ∨ s.player_config_args.title = some []) →
      (nestedTitleOf s.player_config_args = none ∨
        nestedTitleOf s.player_config_args = some []) →
      Stream.title s = "Unknown YouTube Video Title".data) := by
  refine ⟨?_, ?_, ?_⟩
  · intro t ht hne
    simp [Stream.title, ht, pyOrStr, hne]
  · intro u hto hnest hne
    rcases hto with h | h <;> simp [Stream.title, h, hnest, pyOrStr, hne]
  · intro hto hnest
    rcases hto with h | h <;> rcases hnest with h2 | h2 <;>
      simp [Stream.title, h, h2, pyOrStr]

/-- C8 witness: all three precedence branches at concrete descriptors. -/
theorem c8_title_precedence_witness :
    testStream.player_config_args.title = some "My Video".data ∧
    Stream.title testStream = "My Video".data ∧
    c8Stream.player_config_args.title = some [] ∧
    nestedTitleOf c8Stream.player_config_args = some "X".data ∧
    Stream.title c8Stream = "X".data :=
  ⟨rfl, (c8_title_precedence testStream).1 "My Video".data rfl (by decide),
    rfl, rfl,
    (c8_title_precedence c8Stream).2.1 "X".data (Or.inr rfl) rfl (by decide)⟩

end Pytube
